import Mathlib

/-
Shallow embedding of the Lab1 buffer pool layer:
  src/Lab1/lru_replacer.cpp        (class LRUReplacer)
  src/Lab1/buffer_pool_manager.cpp (class BufferPoolManager)

Modelling conventions:
- frame_id_t is a Nat index into the frame array `pages`.
- page_id_t and fd are Int; INVALID_PAGE_ID is -1, as in rucbase.
- The page byte buffer is opaque to this layer, so it is modelled as a
  single Nat value; Page::reset_memory() sets it to 0 and the disk
  manager's read/write copy it whole.
- The disk manager is part of the state: `disk` maps a PageId to the
  last value written there, and `alloc` is the per-fd next-page-number
  counter behind allocate_page.
- std::unordered_map<PageId, frame_id_t> page_table_ is an association
  list with map semantics: insert erases the key first, lookup takes
  the first hit (keys are unique by construction).
- LRUReplacer keeps LRUlist_ with its front as the list head, so
  push_front is cons, back is getLast?, pop_back is dropLast.  LRUhash_
  maps a frame to its unique iterator in LRUlist_, so membership in the
  hash coincides with membership in the list and the hash is left
  implicit; pin's erase-via-iterator is List.erase of that unique
  occurrence.
-/

structure PageId where
  fd : Int
  pageNo : Int
deriving DecidableEq, Repr

structure Page where
  id : PageId
  data : Nat
  isDirty : Bool
  pinCount : Nat
deriving DecidableEq, Repr

instance : Inhabited Page :=
  ⟨{ id := { fd := 0, pageNo := -1 }, data := 0, isDirty := false, pinCount := 0 }⟩

structure LRUReplacer where
  maxSize : Nat
  lst : List Nat
deriving DecidableEq, Repr

/-- LRUReplacer::victim (lru_replacer.cpp:23-38): pops the back of
LRUlist_ (least-recently-unpinned end) and erases it from LRUhash_. -/
def LRUReplacer.victim (r : LRUReplacer) : Option Nat × LRUReplacer :=
  match r.lst.getLast? with
  | none => (none, r)
  | some f => (some f, { r with lst := r.lst.dropLast })

/-- LRUReplacer::pin (lru_replacer.cpp:44-53): if the frame is in
LRUhash_, erase its (unique) list node and the hash entry. -/
def LRUReplacer.pin (r : LRUReplacer) (f : Nat) : LRUReplacer :=
  { r with lst := r.lst.erase f }

/-- LRUReplacer::unpin (lru_replacer.cpp:59-67): if the frame is not in
LRUhash_, push it at the front of LRUlist_. -/
def LRUReplacer.unpin (r : LRUReplacer) (f : Nat) : LRUReplacer :=
  if f ∈ r.lst then r else { r with lst := f :: r.lst }

/-- LRUReplacer::Size (lru_replacer.cpp:73-76). -/
def LRUReplacer.size (r : LRUReplacer) : Nat :=
  r.lst.length

/-- page_table_.find. -/
def ptFind (pid : PageId) : List (PageId × Nat) → Option Nat
  | [] => none
  | (k, v) :: rest => if k = pid then some v else ptFind pid rest

/-- page_table_.erase. -/
def ptErase (pid : PageId) (t : List (PageId × Nat)) : List (PageId × Nat) :=
  t.filter (fun kv => kv.1 != pid)

/-- page_table_[pid] = fid (unordered_map assignment: key becomes unique). -/
def ptInsert (pid : PageId) (fid : Nat) (t : List (PageId × Nat)) : List (PageId × Nat) :=
  (pid, fid) :: ptErase pid t

structure BPState where
  pages : List Page
  pageTable : List (PageId × Nat)
  freeList : List Nat
  replacer : LRUReplacer
  disk : PageId → Nat
  alloc : Int → Int

/-- disk_manager_->write_page. -/
def writeDisk (d : PageId → Nat) (pid : PageId) (v : Nat) : PageId → Nat :=
  fun p => if p = pid then v else d p

/-- BufferPoolManager::find_victim_page (buffer_pool_manager.cpp:18-27):
front of free_list_ if non-empty, otherwise replacer_->victim. -/
def find_victim_page (s : BPState) : Option Nat × BPState :=
  match s.freeList with
  | f :: rest => (some f, { s with freeList := rest })
  | [] =>
    match s.replacer.victim with
    | (o, r) => (o, { s with replacer := r })

/-- BufferPoolManager::update_page (buffer_pool_manager.cpp:35-52):
writeback if dirty, zero the pin count, swap the page-table entry,
reset the buffer, install the new identity on frame newFid. -/
def update_page (s : BPState) (fid : Nat) (newPid : PageId) (newFid : Nat) : BPState :=
  let page := s.pages.getD fid default
  let disk1 := if page.isDirty then writeDisk s.disk page.id page.data else s.disk
  let page1 := if page.isDirty then { page with isDirty := false } else page
  let page2 := { page1 with pinCount := 0 }
  let table1 := ptInsert newPid newFid (ptErase page2.id s.pageTable)
  let page3 := { page2 with data := 0 }
  let pages1 := s.pages.set fid page3
  let q := pages1.getD newFid default
  let pages2 := pages1.set newFid { q with id := newPid, isDirty := false, pinCount := 0 }
  { s with pages := pages2, pageTable := table1, disk := disk1 }

/-- BufferPoolManager::fetch_page (buffer_pool_manager.cpp:59-88); the
returned Page* is rendered as the frame index. -/
def fetch_page (s : BPState) (pid : PageId) : Option Nat × BPState :=
  match ptFind pid s.pageTable with
  | some fid =>
    let page := s.pages.getD fid default
    (some fid, { s with replacer := s.replacer.pin fid,
                        pages := s.pages.set fid { page with pinCount := page.pinCount + 1 } })
  | none =>
    match find_victim_page s with
    | (none, s1) => (none, s1)
    | (some fid, s1) =>
      let s2 := update_page s1 fid pid fid
      let pg := s2.pages.getD fid default
      let s3 := { s2 with pages := s2.pages.set fid { pg with data := s2.disk pid } }
      let pg2 := s3.pages.getD fid default
      (some fid, { s3 with replacer := s3.replacer.pin fid,
                           pages := s3.pages.set fid { pg2 with pinCount := pg2.pinCount + 1 } })

/-- BufferPoolManager::unpin_page (buffer_pool_manager.cpp:96-124). -/
def unpin_page (s : BPState) (pid : PageId) (isDirty : Bool) : Bool × BPState :=
  match ptFind pid s.pageTable with
  | none => (false, s)
  | some fid =>
    let page := s.pages.getD fid default
    if page.pinCount = 0 then (false, s)
    else
      let page1 := { page with pinCount := page.pinCount - 1 }
      let rep1 := if page1.pinCount = 0 then s.replacer.unpin fid else s.replacer
      let page2 := if isDirty then { page1 with isDirty := true } else page1
      (true, { s with pages := s.pages.set fid page2, replacer := rep1 })

/-- BufferPoolManager::flush_page (buffer_pool_manager.cpp:131-147):
unconditional writeback, then clear the dirty flag. -/
def flush_page (s : BPState) (pid : PageId) : Bool × BPState :=
  match ptFind pid s.pageTable with
  | none => (false, s)
  | some fid =>
    let page := s.pages.getD fid default
    (true, { s with disk := writeDisk s.disk pid page.data,
                    pages := s.pages.set fid { page with isDirty := false } })

/-- BufferPoolManager::new_page (buffer_pool_manager.cpp:154-176); the
PageId* out-parameter arrives as the fd and leaves as the returned
PageId. -/
def new_page (s : BPState) (fd : Int) : Option (PageId × Nat) × BPState :=
  match find_victim_page s with
  | (none, s1) => (none, s1)
  | (some fid, s1) =>
    let no := s1.alloc fd
    let s2 := { s1 with alloc := fun f => if f = fd then no + 1 else s1.alloc f }
    let pid : PageId := { fd := fd, pageNo := no }
    let s3 := update_page s2 fid pid fid
    let pg := s3.pages.getD fid default
    (some (pid, fid),
      { s3 with replacer := s3.replacer.pin fid,
                pages := s3.pages.set fid { pg with pinCount := pg.pinCount + 1 } })

/-- BufferPoolManager::delete_page (buffer_pool_manager.cpp:183-210). -/
def delete_page (s : BPState) (pid : PageId) : Bool × BPState :=
  match ptFind pid s.pageTable with
  | none => (true, s)
  | some fid =>
    let page := s.pages.getD fid default
    if page.pinCount ≠ 0 then (false, s)
    else
      let disk1 := writeDisk s.disk page.id page.data
      let table1 := ptErase pid s.pageTable
      let page1 := { page with data := 0, isDirty := false, pinCount := 0,
                               id := { page.id with pageNo := -1 } }
      (true, { s with disk := disk1, pageTable := table1,
                      pages := s.pages.set fid page1,
                      freeList := s.freeList ++ [fid] })

/-- BufferPoolManager::flush_all_pages (buffer_pool_manager.cpp:216-226). -/
def flush_all_pages (s : BPState) (fd : Int) : BPState :=
  (List.range s.pages.length).foldl
    (fun st i =>
      let page := st.pages.getD i default
      if page.id.fd = fd ∧ page.id.pageNo ≠ -1 then
        { st with disk := writeDisk st.disk { fd := fd, pageNo := page.id.pageNo } page.data,
                  pages := st.pages.set i { page with isDirty := false } }
      else st)
    s

/-- A freshly constructed pool of n frames: empty page table, all
frames on free_list_, empty replacer, zeroed disk and allocator. -/
def initPool (n : Nat) : BPState :=
  { pages := List.replicate n default,
    pageTable := [],
    freeList := List.range n,
    replacer := { maxSize := n, lst := [] },
    disk := fun _ => 0,
    alloc := fun _ => 0 }

/-
Helper lemmas and concrete scenario states.
-/

lemma getD_set_self {α : Type} (l : List α) (i : Nat) (a d : α) (h : i < l.length) :
    (l.set i a).getD i d = a := by
  induction l generalizing i with
  | nil => simp at h
  | cons x xs ih =>
    cases i with
    | zero => rfl
    | succ n =>
      show (xs.set n a).getD n d = a
      exact ih n (Nat.lt_of_succ_lt_succ h)

lemma ptFind_ptErase_self (pid : PageId) (t : List (PageId × Nat)) :
    ptFind pid (ptErase pid t) = none := by
  induction t with
  | nil => rfl
  | cons kv rest ih =>
    by_cases h : kv.1 = pid
    · simpa [ptErase, List.filter_cons, h] using ih
    · simpa [ptErase, List.filter_cons, h, ptFind] using ih

lemma foldl_unpin_length (fs : List Nat) :
    ∀ r : LRUReplacer, fs.Nodup → (∀ f ∈ fs, f ∉ r.lst) →
      (fs.foldl LRUReplacer.unpin r).lst.length = r.lst.length + fs.length := by
  induction fs with
  | nil => intro r _ _; simp
  | cons a fs ih =>
    intro r hnd hmem
    have ha : a ∉ r.lst := hmem a (by simp)
    have hstep : (r.unpin a).lst = a :: r.lst := by
      simp [LRUReplacer.unpin, ha]
    have hnd' : fs.Nodup := (List.nodup_cons.mp hnd).2
    have hmem' : ∀ f ∈ fs, f ∉ (r.unpin a).lst := by
      intro f hf hcontra
      rw [hstep] at hcontra
      rcases List.mem_cons.mp hcontra with rfl | hmem2
      · exact (List.nodup_cons.mp hnd).1 hf
      · exact hmem f (by simp [hf]) hmem2
    rw [List.foldl_cons, ih (r.unpin a) hnd' hmem', hstep]
    simp only [List.length_cons]
    omega

def pidA : PageId := { fd := 1, pageNo := 0 }

def pidMiss : PageId := { fd := 1, pageNo := 5 }

def pidB : PageId := { fd := 1, pageNo := 7 }

/-- Pool of one frame after new_page(fd = 1): page (1,0) resident in
frame 0 with pinCount 1; free list and eligibility set empty. -/
def poolNew1 : BPState := (new_page (initPool 1) 1).2

/-- poolNew1 after unpin_page((1,0), false): pinCount 0, frame 0 in the
LRU eligibility list. -/
def poolUnpinned1 : BPState := (unpin_page poolNew1 pidA false).2

/-- poolNew1 after unpin_page((1,0), true): pinCount 0, dirty. -/
def poolDirty1 : BPState := (unpin_page poolNew1 pidA true).2

/-- C1: counter to the claim — in a state where page (1,0) is resident
with pinCount 0 and its frame 0 is in the LRU eligibility list,
delete_page succeeds and appends frame 0 to the free list, yet frame 0
is still in the eligibility list afterwards: the code never removes it. -/
theorem delete_page_leaves_frame_in_eligibility :
    ptFind pidA poolUnpinned1.pageTable = some 0 ∧
    (poolUnpinned1.pages.getD 0 default).pinCount = 0 ∧
    0 ∈ poolUnpinned1.replacer.lst ∧
    (delete_page poolUnpinned1 pidA).1 = true ∧
    0 ∈ (delete_page poolUnpinned1 pidA).2.freeList ∧
    0 ∈ (delete_page poolUnpinned1 pidA).2.replacer.lst := by
  decide

/-- C2: counter to the claim — delete_page on an unpinned resident page
leaves the pool in a state where frame 0 sits in the FreeList and in the
policy eligibility set at once, so the three-way partition of frame
indices is not preserved by every protocol operation. -/
theorem delete_page_breaks_frame_partition :
    0 ∈ (delete_page poolUnpinned1 pidA).2.freeList ∧
    0 ∈ (delete_page poolUnpinned1 pidA).2.replacer.lst ∧
    ¬ (0 ∈ poolUnpinned1.freeList ∧ 0 ∈ poolUnpinned1.replacer.lst) := by
  decide

/-- C3: unpin_page returns false and leaves the state unchanged when the
page is not resident or its pin count is already 0; otherwise it returns
true, decrements the pin count, calls the replacer's unpin exactly when
the count reaches 0, and sets the dirty flag exactly when markDirty is
true (leaving it unchanged otherwise). -/
theorem unpin_page_spec (s : BPState) (pid : PageId) (d : Bool) :
    (ptFind pid s.pageTable = none → unpin_page s pid d = (false, s)) ∧
    (∀ fid, ptFind pid s.pageTable = some fid →
      ((s.pages.getD fid default).pinCount = 0 → unpin_page s pid d = (false, s)) ∧
      (0 < (s.pages.getD fid default).pinCount →
        unpin_page s pid d =
          (true,
            { s with
              pages := s.pages.set fid
                { s.pages.getD fid default with
                  pinCount := (s.pages.getD fid default).pinCount - 1,
                  isDirty := (s.pages.getD fid default).isDirty || d },
              replacer :=
                if (s.pages.getD fid default).pinCount - 1 = 0
                then s.replacer.unpin fid else s.replacer }))) := by
  refine ⟨fun h => by simp [unpin_page, h], fun fid h => ⟨fun h0 => ?_, fun hpos => ?_⟩⟩
  · have h0' := h0
    rw [List.getD_eq_getElem?_getD] at h0'
    simp [unpin_page, h, h0']
  · have h0' : ¬ (s.pages.getD fid default).pinCount = 0 := by omega
    rw [List.getD_eq_getElem?_getD] at h0'
    cases d <;> simp [unpin_page, h, h0']

theorem unpin_page_spec_witness :
    ptFind pidA poolNew1.pageTable = some 0 ∧
    0 < (poolNew1.pages.getD 0 default).pinCount ∧
    (unpin_page poolNew1 pidA false).1 = true := by
  refine ⟨by decide, by decide, ?_⟩
  rw [((unpin_page_spec poolNew1 pidA false).2 0 (by decide)).2 (by decide)]

/-- C4: the LRU victim is the least-recently-unpinned eligible frame:
starting from an empty eligibility list, after unpinning the distinct
frames a, b, c in that order the next victim is a (removed from the
list), not b or c. -/
theorem lru_victim_least_recently_unpinned (m a b c : Nat)
    (hab : a ≠ b) (hac : a ≠ c) (hbc : b ≠ c) :
    ((((LRUReplacer.mk m []).unpin a).unpin b).unpin c).victim =
      (some a, LRUReplacer.mk m [c, b]) := by
  have h1 : (LRUReplacer.mk m []).unpin a = LRUReplacer.mk m [a] := by
    simp [LRUReplacer.unpin]
  have h2 : (LRUReplacer.mk m [a]).unpin b = LRUReplacer.mk m [b, a] := by
    simp [LRUReplacer.unpin, Ne.symm hab]
  have h3 : (LRUReplacer.mk m [b, a]).unpin c = LRUReplacer.mk m [c, b, a] := by
    simp [LRUReplacer.unpin, Ne.symm hac, Ne.symm hbc]
  rw [h1, h2, h3]
  rfl

theorem lru_victim_least_recently_unpinned_witness :
    (10 : Nat) ≠ 11 ∧ (10 : Nat) ≠ 12 ∧ (11 : Nat) ≠ 12 ∧
    ((((LRUReplacer.mk 3 []).unpin 10).unpin 11).unpin 12).victim =
      (some 10, LRUReplacer.mk 3 [12, 11]) :=
  ⟨by decide, by decide, by decide,
    lru_victim_least_recently_unpinned 3 10 11 12 (by decide) (by decide) (by decide)⟩

/-- C5: update_page on a dirty frame first writes the frame's buffer to
disk at its current (old) identity, so the bytes persisted for the old
identity equal the frame's last in-memory content; afterwards the frame
is zeroed, clean, unpinned and carries the new identity. -/
theorem update_page_writeback (s : BPState) (fid : Nat) (newPid : PageId)
    (hlt : fid < s.pages.length)
    (hd : (s.pages.getD fid default).isDirty = true) :
    (update_page s fid newPid fid).disk (s.pages.getD fid default).id
        = (s.pages.getD fid default).data ∧
    (update_page s fid newPid fid).pages.getD fid default =
      { id := newPid, data := 0, isDirty := false, pinCount := 0 } := by
  constructor
  · have hd' := hd
    rw [List.getD_eq_getElem?_getD] at hd'
    simp [update_page, writeDisk, hd']
  · simp [update_page, List.getElem?_set_eq_of_lt, List.length_set, hlt]

theorem update_page_writeback_witness :
    0 < poolDirty1.pages.length ∧
    (poolDirty1.pages.getD 0 default).isDirty = true ∧
    (update_page poolDirty1 0 pidB 0).disk (poolDirty1.pages.getD 0 default).id
      = (poolDirty1.pages.getD 0 default).data :=
  ⟨by decide, by decide,
    (update_page_writeback poolDirty1 0 pidB (by decide) (by decide)).1⟩

/-- C6: flush_page on a resident page writes the frame's buffer to disk
unconditionally (no dirty or pin-count hypothesis), clears the dirty
flag, and changes nothing else — the page table, free list, replacer
and the frame's other fields are untouched; on a non-resident page it
returns false with no state change. -/
theorem flush_page_spec (s : BPState) (pid : PageId) :
    (ptFind pid s.pageTable = none → flush_page s pid = (false, s)) ∧
    (∀ fid, ptFind pid s.pageTable = some fid →
      flush_page s pid =
        (true, { s with
          disk := writeDisk s.disk pid (s.pages.getD fid default).data,
          pages := s.pages.set fid { s.pages.getD fid default with isDirty := false } })) :=
  ⟨fun h => by simp [flush_page, h], fun fid h => by simp [flush_page, h]⟩

theorem flush_page_spec_witness :
    ptFind pidA poolNew1.pageTable = some 0 ∧ (flush_page poolNew1 pidA).1 = true := by
  refine ⟨by decide, ?_⟩
  rw [(flush_page_spec poolNew1 pidA).2 0 (by decide)]

/-- C7: with the free list empty and the eligibility set empty (all
frames pinned), fetch_page on a non-resident page and new_page both
return failure and leave the entire state unchanged — in particular
new_page allocates no page number. -/
theorem pool_exhausted_no_mutation (s : BPState) (pid : PageId) (fd : Int)
    (hfree : s.freeList = []) (helig : s.replacer.lst = [])
    (hmiss : ptFind pid s.pageTable = none) :
    fetch_page s pid = (none, s) ∧ new_page s fd = (none, s) := by
  obtain ⟨pg, pt, fl, rep, dk, al⟩ := s
  obtain ⟨ms, rl⟩ := rep
  simp only at hfree helig hmiss
  subst hfree
  subst helig
  refine ⟨?_, ?_⟩ <;>
    simp [fetch_page, new_page, hmiss, find_victim_page, LRUReplacer.victim]

theorem pool_exhausted_no_mutation_witness :
    poolNew1.freeList = [] ∧ poolNew1.replacer.lst = [] ∧
    ptFind pidMiss poolNew1.pageTable = none ∧
    (fetch_page poolNew1 pidMiss).1 = none ∧ (new_page poolNew1 1).1 = none := by
  obtain ⟨h1, h2⟩ :=
    pool_exhausted_no_mutation poolNew1 pidMiss 1 (by decide) (by decide) (by decide)
  exact ⟨by decide, by decide, by decide, by rw [h1], by rw [h2]⟩

/-- C8: delete_page is idempotent — on a non-resident page it returns
true with the state unchanged, and on a resident page with pinCount 0 it
returns true, the page becomes absent, and a second delete_page returns
true without further state change. -/
theorem delete_page_idempotent (s : BPState) (pid : PageId) :
    (ptFind pid s.pageTable = none → delete_page s pid = (true, s)) ∧
    (∀ fid, ptFind pid s.pageTable = some fid →
      (s.pages.getD fid default).pinCount = 0 →
      (delete_page s pid).1 = true ∧
      ptFind pid (delete_page s pid).2.pageTable = none ∧
      delete_page (delete_page s pid).2 pid = (true, (delete_page s pid).2)) := by
  constructor
  · intro h; simp [delete_page, h]
  · intro fid h h0
    have h0' := h0
    rw [List.getD_eq_getElem?_getD] at h0'
    have habs : ptFind pid (delete_page s pid).2.pageTable = none := by
      have he : (delete_page s pid).2.pageTable = ptErase pid s.pageTable := by
        simp [delete_page, h, h0']
      rw [he]
      exact ptFind_ptErase_self pid s.pageTable
    refine ⟨by simp [delete_page, h, h0'], habs, ?_⟩
    generalize hG : (delete_page s pid).2 = s2 at habs ⊢
    simp [delete_page, habs]

theorem delete_page_idempotent_witness :
    ptFind pidA poolUnpinned1.pageTable = some 0 ∧
    (poolUnpinned1.pages.getD 0 default).pinCount = 0 ∧
    (delete_page poolUnpinned1 pidA).1 = true ∧
    (delete_page (delete_page poolUnpinned1 pidA).2 pidA).1 = true := by
  obtain ⟨ha, hb, hc⟩ := (delete_page_idempotent poolUnpinned1 pidA).2 0 (by decide) (by decide)
  exact ⟨by decide, by decide, ha, by rw [hc]⟩

/-- C9: fetch_page on a resident page (cache hit) changes only that
frame's pin count (incremented by one) and the replacer (pin removes the
frame from the eligibility list if present); the frame's identity, data
and dirty flag, the page table, the free list, the disk and the
allocator are all unchanged. -/
theorem fetch_page_hit_frame_effect (s : BPState) (pid : PageId) (fid : Nat)
    (h : ptFind pid s.pageTable = some fid) :
    fetch_page s pid =
      (some fid,
        { s with
          replacer := s.replacer.pin fid,
          pages := s.pages.set fid
            { s.pages.getD fid default with
              pinCount := (s.pages.getD fid default).pinCount + 1 } }) := by
  simp [fetch_page, h]

theorem fetch_page_hit_frame_effect_witness :
    ptFind pidA poolNew1.pageTable = some 0 ∧ (fetch_page poolNew1 pidA).1 = some 0 := by
  refine ⟨by decide, ?_⟩
  rw [fetch_page_hit_frame_effect poolNew1 pidA 0 (by decide)]

/-- C10: the replacer never enforces the constructor capacity — folding
unpin over k distinct frame ids starting from an empty replacer yields
Size k for every capacity m, including m < k. -/
theorem lru_unpin_ignores_capacity (m : Nat) (fs : List Nat) (hnd : fs.Nodup) :
    (fs.foldl LRUReplacer.unpin (LRUReplacer.mk m [])).size = fs.length := by
  have h := foldl_unpin_length fs (LRUReplacer.mk m []) hnd (fun f _ => List.not_mem_nil f)
  simpa [LRUReplacer.size] using h

theorem lru_unpin_ignores_capacity_witness :
    ([0, 1, 2] : List Nat).Nodup ∧
    (([0, 1, 2] : List Nat).foldl LRUReplacer.unpin (LRUReplacer.mk 2 [])).size = 3 :=
  ⟨by decide, lru_unpin_ignores_capacity 2 [0, 1, 2] (by decide)⟩
